import Mathlib

/-!
Shallow embedding of the crunchyroll-go client library, covering the
request–response normalization layer (`request` in crunchyroll.go), the
login fallback logic (`LoginWithRefreshToken`), the post-login bootstrap
(`postLogin`), the caching switch (`SetCaching` / `IsCaching` and the
child-object accessor caching pattern of `Episode.Streams`,
`Series.Seasons`, `Movie.MovieListing`), and the stream/format resolution
algorithm (`Episode.GetFormat`).

Go `map[string]any` values decoded from JSON are modelled by `JValue`;
a failed one-value type assertion (`x.(T)`) is modelled as an explicit
`panicked` outcome, and a two-value assertion (`v, ok := x.(T)`) as a
pattern match.  Machine integers are modelled as unbounded `Int`
(the values involved — status codes and parsed resolutions — are far from
64-bit overflow).
-/

namespace Crunchyroll

/-- A decoded JSON value, as Go's `encoding/json` produces into `any`
(`map[string]any`, `[]any`, `string`, `bool`, numbers, `nil`). -/
inductive JValue where
  | null
  | bool (b : Bool)
  | str (s : String)
  | num (n : Int)
  | arr (xs : List JValue)
  | obj (fields : List (String × JValue))

/-- Lookup in a decoded `map[string]any`.  The field list stands for the
final decoded map, so keys are looked up by first match. -/
def jLookup (fields : List (String × JValue)) (k : String) : Option JValue :=
  match fields with
  | [] => none
  | (k', v) :: rest => if k' = k then some v else jLookup rest k

/-- The response body as the normalizer `request` sees it: empty
(`buf.Len() == 0`), failing `json.Unmarshal` into `map[string]any`
(this includes valid JSON that is not an object), or a decoded object. -/
inductive Body where
  | empty
  | malformed
  | obj (fields : List (String × JValue))

/-- Outcome of the normalizer `request` (crunchyroll.go lines 298-345) on
the path where `client.Do` succeeded: the response is returned with a nil
error, or a `*RequestError` with the given `Message` is returned, or a
run-time panic occurs (failed one-value type assertion). -/
inductive ReqResult where
  | ok
  | malformedJson
  | errMsg (msg : String)
  | panicked
deriving Repr, DecidableEq

/-- The `code` read for the first element of a `"context"` array:
`errField["message"].(string)` with the two-value form, falling back to the
one-value `errField["code"].(string)` whose failure is a panic (`none`). -/
def contextCode (ef : List (String × JValue)) : Option String :=
  match jLookup ef "message" with
  | some (.str m) => some m
  | _ =>
    match jLookup ef "code" with
    | some (.str c) => some c
    | _ => none

/-- Handling of the first element of a non-empty `"context"` array once it
is known to be an object: build `"<message-or-code> - <field>"`; a missing
string `code` fallback or a missing string `field` is a panic. -/
def contextBranch (ef : List (String × JValue)) : ReqResult :=
  match contextCode ef with
  | none => .panicked
  | some code =>
    match jLookup ef "field" with
    | some (.str f) => .errMsg (code ++ " - " ++ f)
    | _ => .panicked

/-- The one-value assertion `errContext[0].(map[string]any)` followed by
`contextBranch`: a first element that is not an object is a panic. -/
def contextElem (v : JValue) : ReqResult :=
  match v with
  | .obj ef => contextBranch ef
  | _ => .panicked

/-- The error-body classification of `request` (crunchyroll.go lines
308-342) over a decoded object, with `fallback` standing for what the
code does when no shape matches (fall through to the status check). -/
def classifyObj (fields : List (String × JValue)) (fallback : ReqResult) : ReqResult :=
  match jLookup fields "error" with
  | some v =>
    match v with
    | .str e =>
      match jLookup fields "code" with
      | some (.str c) => .errMsg (e ++ " - " ++ c)
      | _ => .errMsg e
    | .bool true =>
      match jLookup fields "message" with
      | some (.str m) => .errMsg m
      | _ => fallback
    | _ => fallback
  | none =>
    match jLookup fields "code" with
    | some _ =>
      match jLookup fields "context" with
      | some (.arr (v :: _)) => contextElem v
      | _ =>
        match jLookup fields "message" with
        | some (.str m) => .errMsg m
        | _ => fallback
    | none => fallback

/-- The normalizer `request` (crunchyroll.go lines 298-345) on the path
where `client.Do` returned a response: `statusCode` and `statusLine` are
`resp.StatusCode` and `resp.Status`, `body` the buffered body. -/
def normalize (statusCode : Nat) (statusLine : String) (body : Body) : ReqResult :=
  match body with
  | .empty => if statusCode ≥ 400 then .errMsg statusLine else .ok
  | .malformed => .malformedJson
  | .obj fields =>
    classifyObj fields (if statusCode ≥ 400 then .errMsg statusLine else .ok)

/-- No string `"message"` key in a decoded object. -/
def noStrMessage (fields : List (String × JValue)) : Prop :=
  ∀ m, jLookup fields "message" ≠ some (.str m)

/-- No non-empty `"context"` array in a decoded object. -/
def noNonemptyContext (fields : List (String × JValue)) : Prop :=
  ∀ v rest, jLookup fields "context" ≠ some (.arr (v :: rest))

/-- The fall-through condition of the error-body classification of
`request`: none of the documented shapes matches, so the code reaches
the status check.  A string `"error"` always classifies; a boolean true
`"error"` falls through unless a string `"message"` is present; any
other `"error"` value falls through; without an `"error"` key, a
`"code"` key classifies (or panics) with a non-empty `"context"` array
and otherwise classifies only with a string `"message"`. -/
def unclassified (fields : List (String × JValue)) : Prop :=
  (∀ e, jLookup fields "error" ≠ some (.str e)) ∧
  (jLookup fields "error" = some (.bool true) → noStrMessage fields) ∧
  (jLookup fields "error" = none → ∀ c, jLookup fields "code" = some c →
    noNonemptyContext fields ∧ noStrMessage fields)

/-- A subtitle track descriptor of a stream variant (only its locale is
consulted by `GetFormat`). -/
structure Subtitle where
  locale : String
deriving Repr, DecidableEq

/-- A format descriptor; `resolution` is `Format.Video.Resolution`, the
`"WIDTHxHEIGHT"` string. -/
structure Format where
  resolution : String
deriving Repr, DecidableEq

/-- A stream variant as `GetFormat` consumes it: its hardsub locale, its
subtitle track descriptors, and the formats `foundStream.Formats()` would
return for it. -/
structure Stream where
  hardsubLocale : String
  subtitles : List Subtitle
  formats : List Format
deriving Repr, DecidableEq

/-- The stream-selection loop of `GetFormat` (part_001 lines 262-278).
The first condition is Go's
`hardsub && stream.HardsubLocale == subtitle || stream.HardsubLocale == "" && subtitle == ""`
with Go's `&&`-over-`||` precedence. -/
def selectStream (streams : List Stream) (subtitle : String) (hardsub : Bool) :
    Option Stream :=
  match streams with
  | [] => none
  | s :: rest =>
    if (hardsub ∧ s.hardsubLocale = subtitle) ∨ (s.hardsubLocale = "" ∧ subtitle = "") then
      some s
    else if ¬ hardsub ∧ (∃ t ∈ s.subtitles, t.locale = subtitle) then
      some s
    else
      selectStream rest subtitle hardsub

/-- Go `strings.SplitN(s, "x", 2)` on the character list: `some (a, b)`
with `a` the part before the first `x` and `b` everything after it, or
`none` when there is no `x` (the Go slice then has length 1 and the
code's index `[1]` access panics). -/
def splitFirstX (cs : List Char) : Option (List Char × List Char) :=
  match cs with
  | [] => none
  | c :: rest =>
    if c = 'x' then some ([], rest)
    else
      match splitFirstX rest with
      | some (a, b) => some (c :: a, b)
      | none => none

/-- Value of a non-empty all-digit character list, `none` otherwise. -/
def decDigits (cs : List Char) : Option Nat :=
  if cs ≠ [] ∧ cs.all Char.isDigit then
    some (cs.foldl (fun a c => a * 10 + (c.toNat - 48)) 0)
  else
    none

/-- Go `strconv.Atoi` with its error ignored (`n, _ := strconv.Atoi(s)`):
an optional sign followed by digits parses, anything else yields 0. -/
def atoiChars (cs : List Char) : Int :=
  match cs with
  | '-' :: rest =>
    match decDigits rest with
    | some n => -(n : Int)
    | none => 0
  | '+' :: rest =>
    match decDigits rest with
    | some n => (n : Int)
    | none => 0
  | other =>
    match decDigits other with
    | some n => (n : Int)
    | none => 0

/-- The width+height sum `curResX + curResY` for a format, or `none` when
the resolution string holds no `x` (in the Go code that is an
index-out-of-range panic). -/
def resSum (f : Format) : Option Int :=
  match splitFirstX f.resolution.data with
  | some (a, b) => some (atoiChars a + atoiChars b)
  | none => none

/-- The width+height key of a format whose resolution contains an `x`. -/
def sumKey (f : Format) : Int :=
  (resSum f).getD 0

/-- Outcome of the format-selection loop of `GetFormat` (part_001 lines
287-319): a format is returned, or the loop ends with no match
(`no matching resolution found`), or the resolution split panics. -/
inductive FormatResult where
  | found (f : Format)
  | noMatch
  | panicked
deriving Repr, DecidableEq

/-- The format-selection loop of `GetFormat` with its running `res`
accumulator.  For `"best"`/`"worst"`: the first candidate is adopted and
the iteration `continue`d (skipping the exact-match check); later
candidates are parsed (panicking when a resolution has no `x`) and
replace `res` on strict inequality of the width+height sums; the
exact-match check runs after the update. -/
def selectFormatLoop (resolution : String) (res : Option Format) :
    List Format → FormatResult
  | [] =>
    match res with
    | some f => .found f
    | none => .noMatch
  | f :: rest =>
    if resolution = "worst" ∨ resolution = "best" then
      match res with
      | none => selectFormatLoop resolution (some f) rest
      | some r =>
        match resSum f, resSum r with
        | some curSum, some rSum =>
          if f.resolution = resolution then .found f
          else
            selectFormatLoop resolution
              (if resolution = "worst" ∧ curSum < rSum then some f
               else if resolution = "best" ∧ curSum > rSum then some f
               else some r) rest
        | _, _ => .panicked
    else
      if f.resolution = resolution then .found f
      else selectFormatLoop resolution res rest

/-- The format-selection part of `GetFormat` over a selected stream's
formats. -/
def selectFormat (resolution : String) (formats : List Format) : FormatResult :=
  selectFormatLoop resolution none formats

/-- Outcome of `GetFormat` (part_001 lines 256-320): a format, the
`no matching stream found` error, the `no matching resolution found`
error, or a panic in the resolution split. -/
inductive GetFormatResult where
  | found (f : Format)
  | noStream
  | noResolution
  | panicked
deriving Repr, DecidableEq

/-- `Episode.GetFormat` (part_001 lines 256-320) given the stream list
that `e.Streams()` returned. -/
def GetFormat (streams : List Stream) (resolution : String) (subtitle : String)
    (hardsub : Bool) : GetFormatResult :=
  match selectStream streams subtitle hardsub with
  | none => .noStream
  | some s =>
    match selectFormat resolution s.formats with
    | .found f => .found f
    | .noMatch => .noResolution
    | .panicked => .panicked

/-- The selection predicate the spec states for `wantHardsub = true`:
hardsub locale equal to the request, or both empty. -/
def hardsubSelect (subtitle : String) (s : Stream) : Prop :=
  s.hardsubLocale = subtitle ∨ (s.hardsubLocale = "" ∧ subtitle = "")

instance (subtitle : String) (s : Stream) : Decidable (hardsubSelect subtitle s) := by
  unfold hardsubSelect; infer_instance

/-- The selection predicate the code actually applies for
`wantHardsub = false`: the no-hardsub/no-request match, or a subtitle
track descriptor with the requested locale. -/
def softsubSelect (subtitle : String) (s : Stream) : Prop :=
  (s.hardsubLocale = "" ∧ subtitle = "") ∨ ∃ t ∈ s.subtitles, t.locale = subtitle

instance (subtitle : String) (s : Stream) : Decidable (softsubSelect subtitle s) := by
  unfold softsubSelect; infer_instance

/-- The `Crunchyroll` base struct, reduced to the field the caching claims
consult (crunchyroll.go line 255). -/
structure Session where
  cache : Bool
deriving Repr, DecidableEq

/-- `Crunchyroll.SetCaching` (crunchyroll.go lines 278-280). -/
def SetCaching (c : Session) (caching : Bool) : Session :=
  { c with cache := caching }

/-- `Crunchyroll.IsCaching` (crunchyroll.go lines 270-272). -/
def IsCaching (c : Session) : Bool :=
  c.cache

/-- One call of a cached child-object accessor (`Episode.Streams`,
part_001 lines 322-343; `Series.Seasons`, part_000 lines 247-280;
`Movie.MovieListing`, part_000 lines 90-123, all with the same shape):
given the session's cache flag, the current cache slot (`e.children`)
and the list a fresh fetch would return, produce the returned list and
the new cache slot. -/
def streamsStep (cache : Bool) (children : Option (List Stream))
    (fetched : List Stream) : List Stream × Option (List Stream) :=
  match children with
  | some cs => (cs, some cs)
  | none => (fetched, if cache then some fetched else none)

/-- Go `strings.TrimPrefix`, character-list based so it evaluates by
kernel reduction. -/
def trimPrefix (s pre : String) : String :=
  if pre.data.isPrefixOf s.data then ⟨s.data.drop pre.data.length⟩ else s

/-- Go `strings.HasSuffix`. -/
def hasSuffix (s suf : String) : Bool :=
  suf.data.isSuffixOf s.data

/-- The `cms` fields the first bootstrap call of `postLogin` extracts
from `/index/v2`. -/
structure CmsData where
  bucket : String
  policy : String
  signature : String
  keyPairID : String
deriving Repr, DecidableEq

/-- The part of the session `Config` that `postLogin`'s three bootstrap
calls populate (crunchyroll.go lines 193-218). -/
structure SessionConfig where
  bucket : String
  premium : Bool
  policy : String
  signature : String
  keyPairID : String
  externalID : String
  maturityRating : String
deriving Repr, DecidableEq

/-- `postLogin` (crunchyroll.go lines 169-221) over the outcomes of its
three bootstrap calls: `/index/v2` (contributing the cms data),
`/accounts/v1/me` (the external id) and `/accounts/v1/me/profile` (the
maturity rating).  Each failing call aborts with that call's error; only
when all three succeed is a session produced. -/
def postLogin {ε : Type} (index : Except ε CmsData) (accountMe : Except ε String)
    (profile : Except ε String) : Except ε SessionConfig :=
  match index with
  | .error e => .error e
  | .ok cms =>
    match accountMe with
    | .error e => .error e
    | .ok externalID =>
      match profile with
      | .error e => .error e
      | .ok maturityRating =>
        .ok { bucket := trimPrefix cms.bucket "/"
              premium := hasSuffix (trimPrefix cms.bucket "/") "crunchyroll"
              policy := cms.policy
              signature := cms.signature
              keyPairID := cms.keyPairID
              externalID := externalID
              maturityRating := maturityRating }

/-- A token-endpoint request as `LoginWithRefreshToken` builds it:
the grant type and optional `refresh_token` of the form body, the scope,
the Basic Authorization header, and the cookies added to the request. -/
structure TokenRequest where
  grantType : String
  refreshTokenParam : Option String
  scope : String
  authHeader : String
  cookies : List (String × String)
deriving Repr, DecidableEq

/-- The Basic-auth header of the initial refresh_token-grant call
(crunchyroll.go line 135). -/
def authHeaderA : String :=
  "Basic aHJobzlxM2F3dnNrMjJ1LXRzNWE6cHROOURteXRBU2Z6QjZvbXVsSzh6cUxzYTczVE1TY1k="

/-- The Basic-auth header of the fallback etp_rt_cookie-grant call
(crunchyroll.go line 149). -/
def authHeaderB : String :=
  "Basic bm9haWhkZXZtXzZpeWcwYThsMHE6"

/-- The initial token request of `LoginWithRefreshToken`
(crunchyroll.go lines 126-136). -/
def firstTokenRequest (refreshToken : String) : TokenRequest :=
  { grantType := "refresh_token"
    refreshTokenParam := some refreshToken
    scope := "offline_access"
    authHeader := authHeaderA
    cookies := [] }

/-- The fallback token request of `LoginWithRefreshToken`
(crunchyroll.go lines 141-154): grant `etp_rt_cookie`, no explicit
refresh_token parameter, header B, the token as an `etp_rt` cookie. -/
def fallbackTokenRequest (refreshToken : String) : TokenRequest :=
  { grantType := "etp_rt_cookie"
    refreshTokenParam := none
    scope := "offline_access"
    authHeader := authHeaderB
    cookies := [("etp_rt", refreshToken)] }

/-- The accumulator update of the `"best"` scan of `GetFormat`: the
running format is replaced only on a strictly greater width+height sum,
so a tie keeps the earlier candidate. -/
def bestAcc (r f : Format) : Format :=
  if sumKey f > sumKey r then f else r

/-- The accumulator update of the `"worst"` scan of `GetFormat`: the
running format is replaced only on a strictly smaller width+height sum,
so a tie keeps the earlier candidate. -/
def worstAcc (r f : Format) : Format :=
  if sumKey f < sumKey r then f else r

/-- An error of the `request` helper: a `*RequestError` carrying the
response status code, or a transport-level error from `client.Do`
(which is not a `*RequestError`).  The tag keeps distinct errors
distinguishable. -/
inductive ReqErr where
  | requestError (status : Nat) (tag : String)
  | transport (tag : String)
deriving Repr, DecidableEq

/-- Outcome of `LoginWithRefreshToken` (crunchyroll.go lines 124-167) up
to `postLogin`: the login proceeded (recording whether the fallback
request was the one that succeeded), or an error was returned, or the
one-value type assertion `err.(*RequestError)` panicked. -/
inductive LoginResult where
  | success (usedFallback : Bool)
  | failure (e : ReqErr)
  | panicked
deriving Repr, DecidableEq

/-- `LoginWithRefreshToken` (crunchyroll.go lines 124-167) against a
response oracle `respond` for the token endpoint.  On a failing first
call the code runs `reqErr := err.(*RequestError)`: a one-value type
assertion, which panics when the error is a transport error.  With a
`*RequestError` of status 400 the fallback request is issued once and
its outcome (success or its own error) is what the caller sees; any
other status is returned as-is. -/
def LoginWithRefreshToken (respond : TokenRequest → Except ReqErr Unit)
    (refreshToken : String) : LoginResult :=
  match respond (firstTokenRequest refreshToken) with
  | .ok _ => .success false
  | .error e =>
    match e with
    | .transport _ => .panicked
    | .requestError status tag =>
      if status = 400 then
        match respond (fallbackTokenRequest refreshToken) with
        | .ok _ => .success true
        | .error e2 => .failure e2
      else
        .failure (.requestError status tag)

/-! Helper lemmas. -/

lemma resSum_isSome_eq (f : Format) (h : (resSum f).isSome = true) :
    resSum f = some (sumKey f) := by
  cases hr : resSum f with
  | none => rw [hr] at h; simp at h
  | some v => rw [sumKey, hr]; rfl

lemma selectFormatLoop_exact (resolution : String) (hb : resolution ≠ "best")
    (hw : resolution ≠ "worst") :
    ∀ (formats : List Format) (res : Option Format),
      (∀ f ∈ formats, f.resolution ≠ resolution) →
      selectFormatLoop resolution res formats =
        (match res with
         | some f => .found f
         | none => .noMatch) := by
  intro formats
  induction formats with
  | nil => intro res _; rfl
  | cons f rest ih =>
    intro res hall
    simp only [selectFormatLoop]
    rw [if_neg, if_neg]
    · exact ih res fun g hg => hall g (List.mem_cons_of_mem f hg)
    · exact hall f (List.mem_cons_self f rest)
    · rintro (h | h)
      · exact hw h
      · exact hb h

lemma selectFormatLoop_best :
    ∀ (rest : List Format) (r : Format),
      (resSum r).isSome = true →
      (∀ f ∈ rest, (resSum f).isSome = true) →
      (∀ f ∈ rest, f.resolution ≠ "best") →
      selectFormatLoop "best" (some r) rest = .found (rest.foldl bestAcc r) := by
  intro rest
  induction rest with
  | nil => intro r _ _ _; rfl
  | cons f rest ih =>
    intro r hr hall hne
    simp only [selectFormatLoop]
    rw [if_pos (Or.inr trivial),
      resSum_isSome_eq f (hall f (List.mem_cons_self f rest)), resSum_isSome_eq r hr]
    dsimp only
    rw [if_neg (hne f (List.mem_cons_self f rest))]
    have hacc :
        (if ("best" : String) = "worst" ∧ sumKey f < sumKey r then some f
         else if True ∧ sumKey f > sumKey r then some f
         else some r) = some (bestAcc r f) := by
      rw [if_neg (by rintro ⟨h, -⟩; exact absurd h (by decide))]
      by_cases hgt : sumKey f > sumKey r
      · rw [if_pos ⟨trivial, hgt⟩, bestAcc, if_pos hgt]
      · rw [if_neg (by rintro ⟨-, h⟩; exact hgt h), bestAcc, if_neg hgt]
    rw [hacc, List.foldl_cons]
    refine ih (bestAcc r f) ?_ (fun g hg => hall g (List.mem_cons_of_mem f hg))
      (fun g hg => hne g (List.mem_cons_of_mem f hg))
    rw [bestAcc]
    split
    · exact hall f (List.mem_cons_self f rest)
    · exact hr

lemma foldl_bestAcc_le : ∀ (rest : List Format) (r : Format),
    sumKey r ≤ sumKey (rest.foldl bestAcc r) := by
  intro rest
  induction rest with
  | nil => intro r; exact le_refl _
  | cons f rest ih =>
    intro r
    rw [List.foldl_cons]
    refine le_trans ?_ (ih (bestAcc r f))
    rw [bestAcc]
    split
    · exact le_of_lt (by assumption)
    · exact le_refl _

lemma foldl_bestAcc_bound : ∀ (rest : List Format) (r g : Format), g ∈ rest →
    sumKey g ≤ sumKey (rest.foldl bestAcc r) := by
  intro rest
  induction rest with
  | nil => intro r g hg; exact absurd hg (List.not_mem_nil g)
  | cons f rest ih =>
    intro r g hg
    rw [List.foldl_cons]
    rcases List.mem_cons.mp hg with rfl | hg'
    · refine le_trans ?_ (foldl_bestAcc_le rest (bestAcc r g))
      rw [bestAcc]
      split
      · exact le_refl _
      · exact le_of_not_lt (by assumption)
    · exact ih (bestAcc r f) g hg'

lemma selectFormatLoop_worst :
    ∀ (rest : List Format) (r : Format),
      (resSum r).isSome = true →
      (∀ f ∈ rest, (resSum f).isSome = true) →
      (∀ f ∈ rest, f.resolution ≠ "worst") →
      selectFormatLoop "worst" (some r) rest = .found (rest.foldl worstAcc r) := by
  intro rest
  induction rest with
  | nil => intro r _ _ _; rfl
  | cons f rest ih =>
    intro r hr hall hne
    simp only [selectFormatLoop]
    rw [if_pos (Or.inl trivial),
      resSum_isSome_eq f (hall f (List.mem_cons_self f rest)), resSum_isSome_eq r hr]
    dsimp only
    rw [if_neg (hne f (List.mem_cons_self f rest))]
    have hacc :
        (if True ∧ sumKey f < sumKey r then some f
         else if ("worst" : String) = "best" ∧ sumKey f > sumKey r then some f
         else some r) = some (worstAcc r f) := by
      by_cases hlt : sumKey f < sumKey r
      · rw [if_pos ⟨trivial, hlt⟩, worstAcc, if_pos hlt]
      · rw [if_neg (by rintro ⟨-, h⟩; exact hlt h),
          if_neg (by rintro ⟨h, -⟩; exact absurd h (by decide)), worstAcc, if_neg hlt]
    rw [hacc, List.foldl_cons]
    refine ih (worstAcc r f) ?_ (fun g hg => hall g (List.mem_cons_of_mem f hg))
      (fun g hg => hne g (List.mem_cons_of_mem f hg))
    rw [worstAcc]
    split
    · exact hall f (List.mem_cons_self f rest)
    · exact hr

lemma foldl_worstAcc_le : ∀ (rest : List Format) (r : Format),
    sumKey (rest.foldl worstAcc r) ≤ sumKey r := by
  intro rest
  induction rest with
  | nil => intro r; exact le_refl _
  | cons f rest ih =>
    intro r
    rw [List.foldl_cons]
    refine le_trans (ih (worstAcc r f)) ?_
    rw [worstAcc]
    split
    · exact le_of_lt (by assumption)
    · exact le_refl _

lemma foldl_worstAcc_bound : ∀ (rest : List Format) (r g : Format), g ∈ rest →
    sumKey (rest.foldl worstAcc r) ≤ sumKey g := by
  intro rest
  induction rest with
  | nil => intro r g hg; exact absurd hg (List.not_mem_nil g)
  | cons f rest ih =>
    intro r g hg
    rw [List.foldl_cons]
    rcases List.mem_cons.mp hg with rfl | hg'
    · refine le_trans (foldl_worstAcc_le rest (worstAcc r g)) ?_
      rw [worstAcc]
      split
      · exact le_refl _
      · exact le_of_not_lt (by assumption)
    · exact ih (worstAcc r f) g hg'

lemma selectFormat_best_eq (f0 : Format) (rest : List Format)
    (hall : ∀ f ∈ f0 :: rest, (resSum f).isSome = true)
    (hne : ∀ f ∈ f0 :: rest, f.resolution ≠ "best") :
    selectFormat "best" (f0 :: rest) = .found (rest.foldl bestAcc f0) := by
  rw [selectFormat]
  simp only [selectFormatLoop]
  rw [if_pos (Or.inr trivial)]
  exact selectFormatLoop_best rest f0 (hall f0 (List.mem_cons_self f0 rest))
    (fun g hg => hall g (List.mem_cons_of_mem f0 hg))
    (fun g hg => hne g (List.mem_cons_of_mem f0 hg))

lemma selectFormat_worst_eq (f0 : Format) (rest : List Format)
    (hall : ∀ f ∈ f0 :: rest, (resSum f).isSome = true)
    (hne : ∀ f ∈ f0 :: rest, f.resolution ≠ "worst") :
    selectFormat "worst" (f0 :: rest) = .found (rest.foldl worstAcc f0) := by
  rw [selectFormat]
  simp only [selectFormatLoop]
  rw [if_pos (Or.inl trivial)]
  exact selectFormatLoop_worst rest f0 (hall f0 (List.mem_cons_self f0 rest))
    (fun g hg => hall g (List.mem_cons_of_mem f0 hg))
    (fun g hg => hne g (List.mem_cons_of_mem f0 hg))

lemma strBranch_ne (fields : List (String × JValue)) (e : String) :
    (match jLookup fields "code" with
     | some (.str c) => ReqResult.errMsg (e ++ " - " ++ c)
     | _ => ReqResult.errMsg e) ≠ .panicked := by
  split <;> simp

lemma msgBranch_ne (fields : List (String × JValue)) (fallback : ReqResult)
    (hfb : fallback ≠ .panicked) :
    (match jLookup fields "message" with
     | some (.str m) => ReqResult.errMsg m
     | _ => fallback) ≠ .panicked := by
  split
  · simp
  · exact hfb

lemma msgBranch_eq (fields : List (String × JValue)) (fallback : ReqResult)
    (hns : noStrMessage fields) :
    (match jLookup fields "message" with
     | some (.str m) => ReqResult.errMsg m
     | _ => fallback) = fallback := by
  rcases hm : jLookup fields "message" with - | m
  · rfl
  · cases m with
    | str s => exact absurd hm (hns s)
    | null => rfl
    | bool b => rfl
    | num n => rfl
    | arr xs => rfl
    | obj o => rfl

lemma classifyObj_unclassified (fields : List (String × JValue)) (fallback : ReqResult)
    (h : unclassified fields) : classifyObj fields fallback = fallback := by
  obtain ⟨h1, h2, h3⟩ := h
  rcases herr : jLookup fields "error" with - | v
  · rcases hcode : jLookup fields "code" with - | c
    · simp [classifyObj, herr, hcode]
    · obtain ⟨hctx, hmsg⟩ := h3 herr c hcode
      simp only [classifyObj, herr, hcode]
      rcases hctxe : jLookup fields "context" with - | w
      · exact msgBranch_eq fields fallback hmsg
      · cases w with
        | arr xs =>
          cases xs with
          | nil => exact msgBranch_eq fields fallback hmsg
          | cons v rest => exact absurd hctxe (hctx v rest)
        | null => exact msgBranch_eq fields fallback hmsg
        | bool b => exact msgBranch_eq fields fallback hmsg
        | str s => exact msgBranch_eq fields fallback hmsg
        | num n => exact msgBranch_eq fields fallback hmsg
        | obj o => exact msgBranch_eq fields fallback hmsg
  · cases v with
    | str e => exact absurd herr (h1 e)
    | bool b =>
      cases b
      · simp [classifyObj, herr]
      · have hmsg := h2 herr
        simp only [classifyObj, herr]
        exact msgBranch_eq fields fallback hmsg
    | null => simp [classifyObj, herr]
    | num n => simp [classifyObj, herr]
    | arr xs => simp [classifyObj, herr]
    | obj o => simp [classifyObj, herr]

lemma classifyObj_panicked (fields : List (String × JValue)) (fallback : ReqResult)
    (hfb : fallback ≠ .panicked) :
    (classifyObj fields fallback = .panicked ↔
      jLookup fields "error" = none ∧
        ∃ c v rest, jLookup fields "code" = some c ∧
          jLookup fields "context" = some (.arr (v :: rest)) ∧
          contextElem v = .panicked) := by
  constructor
  · intro h
    rcases herr : jLookup fields "error" with - | v
    · simp only [classifyObj, herr] at h
      rcases hcode : jLookup fields "code" with - | c
      · simp only [hcode] at h
        exact absurd h hfb
      · simp only [hcode] at h
        rcases hctx : jLookup fields "context" with - | w
        · simp only [hctx] at h
          exact absurd h (msgBranch_ne fields fallback hfb)
        · cases w with
          | arr xs =>
            cases xs with
            | nil =>
              simp only [hctx] at h
              exact absurd h (msgBranch_ne fields fallback hfb)
            | cons v rest =>
              simp only [hctx] at h
              exact ⟨rfl, c, v, rest, rfl, rfl, h⟩
          | null =>
            simp only [hctx] at h
            exact absurd h (msgBranch_ne fields fallback hfb)
          | bool b =>
            simp only [hctx] at h
            exact absurd h (msgBranch_ne fields fallback hfb)
          | str s =>
            simp only [hctx] at h
            exact absurd h (msgBranch_ne fields fallback hfb)
          | num n =>
            simp only [hctx] at h
            exact absurd h (msgBranch_ne fields fallback hfb)
          | obj o =>
            simp only [hctx] at h
            exact absurd h (msgBranch_ne fields fallback hfb)
    · exfalso
      simp only [classifyObj, herr] at h
      cases v with
      | str e => exact absurd h (strBranch_ne fields e)
      | bool b =>
        cases b
        · exact hfb h
        · exact absurd h (msgBranch_ne fields fallback hfb)
      | null => exact hfb h
      | num n => exact hfb h
      | arr xs => exact hfb h
      | obj o => exact hfb h
  · rintro ⟨herr, c, v, rest, hcode, hctx, hv⟩
    simp only [classifyObj, herr, hcode, hctx]
    exact hv

/-! The claims. -/

/-- C1, counterexample.  The claim says that with `wantHardsub = false`
the selected variant is always one with a subtitle-track descriptor whose
locale equals the request, and that a variant with no such track is never
selected.  False: with requested subtitle locale `""`, a variant with
hardsub locale `""` and no subtitle tracks at all is selected (the
`stream.HardsubLocale == "" && subtitle == ""` disjunct of the condition
is not guarded by `hardsub`). -/
theorem C1_counterexample :
    selectStream [{ hardsubLocale := "", subtitles := [], formats := [] }] "" false =
        some { hardsubLocale := "", subtitles := [], formats := [] } ∧
      ({ hardsubLocale := "", subtitles := [], formats := [] } : Stream).subtitles = [] :=
  ⟨rfl, rfl⟩

/-- C1, amended.  With `wantHardsub = false` the variant selected is the
first (in list order) that either has empty hardsub locale while the
requested subtitle locale is empty, or has at least one subtitle-track
descriptor whose locale equals the requested subtitle locale; in
particular, for a non-empty requested locale it is exactly the first
variant with a matching subtitle track. -/
theorem C1_theorem (streams : List Stream) (subtitle : String) :
    selectStream streams subtitle false =
      streams.find? fun s => decide (softsubSelect subtitle s) := by
  induction streams with
  | nil => rfl
  | cons s rest ih =>
    by_cases hsel : softsubSelect subtitle s
    · rw [List.find?_cons_of_pos _ (by simpa using hsel)]
      rcases hsel with h1 | h2
      · simp [selectStream, h1]
      · by_cases h1 : s.hardsubLocale = "" ∧ subtitle = ""
        · simp [selectStream, h1]
        · simp [selectStream, h1, h2]
    · rw [List.find?_cons_of_neg _ (by simpa using hsel)]
      rw [softsubSelect] at hsel
      push_neg at hsel
      obtain ⟨h1, h2⟩ := hsel
      rw [selectStream, if_neg, if_neg]
      · exact ih
      · rintro ⟨-, t, ht, hloc⟩
        exact h2 t ht hloc
      · rintro (⟨hf, -⟩ | ⟨hb1, hb2⟩)
        · simp at hf
        · exact h1 hb1 hb2

/-- C8.  With `wantHardsub = true` the variant selected is the first whose
hardsub locale equals the requested subtitle locale, or whose hardsub
locale is empty when the requested subtitle locale is also empty; a
variant with hardsub locale `""` matches a request for `""`, and a
variant with hardsub locale `"de-DE"` does not match a request
for `""`. -/
theorem C8_theorem :
    (∀ (streams : List Stream) (subtitle : String),
        selectStream streams subtitle true =
          streams.find? fun s => decide (hardsubSelect subtitle s)) ∧
      selectStream [{ hardsubLocale := "", subtitles := [], formats := [] }] "" true =
        some { hardsubLocale := "", subtitles := [], formats := [] } ∧
      selectStream [{ hardsubLocale := "de-DE", subtitles := [], formats := [] }] "" true =
        none := by
  refine ⟨?_, rfl, rfl⟩
  intro streams subtitle
  induction streams with
  | nil => rfl
  | cons s rest ih =>
    by_cases hsel : hardsubSelect subtitle s
    · rw [List.find?_cons_of_pos _ (by simpa using hsel)]
      rw [selectStream, if_pos]
      rcases hsel with h1 | h2
      · exact Or.inl ⟨rfl, h1⟩
      · exact Or.inr h2
    · rw [List.find?_cons_of_neg _ (by simpa using hsel)]
      rw [hardsubSelect] at hsel
      push_neg at hsel
      obtain ⟨h1, h2⟩ := hsel
      rw [selectStream, if_neg, if_neg]
      · exact ih
      · rintro ⟨ht, -⟩
        exact ht rfl
      · rintro (⟨-, he⟩ | ⟨hb1, hb2⟩)
        · exact h1 he
        · exact h2 hb1 hb2

/-- C7.  For `"best"`/`"worst"` the candidates are ranked by the sum of
the two integers obtained by splitting the resolution on the first `x`,
the running best/worst is updated only on strict inequality (ties keep
the earliest-seen candidate), and on the spec's example list `"best"`
returns `"1920x1080"` and `"worst"` returns `"640x360"`.  The last two
conjuncts state the general scan: when every candidate's resolution
contains an `x` and none literally equals the sentinel, the scan is the
fold of the strict-inequality accumulator, and its result has a maximal
(resp. minimal) width+height sum among all candidates. -/
theorem C7_theorem :
    GetFormat [{ hardsubLocale := "", subtitles := [],
                 formats := [{ resolution := "640x360" }, { resolution := "1280x720" },
                             { resolution := "1920x1080" }] }] "best" "" true =
      .found { resolution := "1920x1080" } ∧
    GetFormat [{ hardsubLocale := "", subtitles := [],
                 formats := [{ resolution := "640x360" }, { resolution := "1280x720" },
                             { resolution := "1920x1080" }] }] "worst" "" true =
      .found { resolution := "640x360" } ∧
    selectFormat "best" [{ resolution := "100x100" }, { resolution := "150x50" }] =
      .found { resolution := "100x100" } ∧
    selectFormat "worst" [{ resolution := "60x40" }, { resolution := "40x60" }] =
      .found { resolution := "60x40" } ∧
    (∀ (f0 : Format) (rest : List Format),
      (∀ f ∈ f0 :: rest, (resSum f).isSome = true) →
      (∀ f ∈ f0 :: rest, f.resolution ≠ "best") →
      selectFormat "best" (f0 :: rest) = .found (rest.foldl bestAcc f0) ∧
        ∀ g ∈ f0 :: rest, sumKey g ≤ sumKey (rest.foldl bestAcc f0)) ∧
    (∀ (f0 : Format) (rest : List Format),
      (∀ f ∈ f0 :: rest, (resSum f).isSome = true) →
      (∀ f ∈ f0 :: rest, f.resolution ≠ "worst") →
      selectFormat "worst" (f0 :: rest) = .found (rest.foldl worstAcc f0) ∧
        ∀ g ∈ f0 :: rest, sumKey (rest.foldl worstAcc f0) ≤ sumKey g) := by
  refine ⟨by decide, by decide, by decide, by decide, ?_, ?_⟩
  · intro f0 rest hall hne
    refine ⟨selectFormat_best_eq f0 rest hall hne, fun g hg => ?_⟩
    rcases List.mem_cons.mp hg with rfl | hg'
    · exact foldl_bestAcc_le rest g
    · exact foldl_bestAcc_bound rest f0 g hg'
  · intro f0 rest hall hne
    refine ⟨selectFormat_worst_eq f0 rest hall hne, fun g hg => ?_⟩
    rcases List.mem_cons.mp hg with rfl | hg'
    · exact foldl_worstAcc_le rest g
    · exact foldl_worstAcc_bound rest f0 g hg'

/-- C7, witness: the general `"best"` scan of `C7_theorem` applied at a
concrete format list, with the fold evaluated and the sum bound
instantiated at one member. -/
theorem C7_witness :
    selectFormat "best" [{ resolution := "10x10" }, { resolution := "30x30" },
        { resolution := "20x20" }] =
      .found { resolution := "30x30" } ∧
    sumKey { resolution := "20x20" } ≤ sumKey { resolution := "30x30" } := by
  have h := C7_theorem.2.2.2.2.1 { resolution := "10x10" }
    [{ resolution := "30x30" }, { resolution := "20x20" }] (by decide) (by decide)
  have hfold : List.foldl bestAcc { resolution := "10x10" }
      [{ resolution := "30x30" }, { resolution := "20x20" }] =
      { resolution := "30x30" } := by decide
  refine ⟨?_, ?_⟩
  · have h1 := h.1
    rw [hfold] at h1
    exact h1
  · have h2 := h.2 { resolution := "20x20" } (by decide)
    rwa [hfold] at h2

/-- C4, counterexample.  The claim says that when every format's
resolution string fails to parse as `"WIDTHxHEIGHT"` integers, GetFormat
returns the `no matching resolution` error, for the `"best"` sentinel
too.  False: for `"best"`/`"worst"` the first format is adopted
unconditionally and `strconv.Atoi` errors are ignored, so a single
format with resolution `"axb"` is returned. -/
theorem C4_counterexample :
    GetFormat [{ hardsubLocale := "", subtitles := [],
                 formats := [{ resolution := "axb" }] }] "best" "" true =
      .found { resolution := "axb" } := by decide

/-- C4, amended.  An empty format list yields the `no matching
resolution` error for every resolution spec, and an exact resolution spec
also yields it when no format's resolution string equals the spec; but
for `"best"`/`"worst"` with a non-empty format list a format is returned
even when every resolution is malformed (last two conjuncts). -/
theorem C4_theorem :
    (∀ resolution : String, selectFormat resolution [] = .noMatch) ∧
    (∀ (streams : List Stream) (resolution subtitle : String) (hardsub : Bool)
        (s : Stream),
      selectStream streams subtitle hardsub = some s → s.formats = [] →
      GetFormat streams resolution subtitle hardsub = .noResolution) ∧
    (∀ (resolution : String) (formats : List Format),
      resolution ≠ "best" → resolution ≠ "worst" →
      (∀ f ∈ formats, f.resolution ≠ resolution) →
      selectFormat resolution formats = .noMatch) ∧
    selectFormat "best" [{ resolution := "axb" }] = .found { resolution := "axb" } ∧
    selectFormat "worst" [{ resolution := "axb" }] = .found { resolution := "axb" } := by
  refine ⟨fun _ => rfl, ?_, ?_, by decide, by decide⟩
  · intro streams resolution subtitle hardsub s hsel hfmt
    unfold GetFormat
    rw [hsel]
    dsimp only
    rw [hfmt]
    rfl
  · intro resolution formats hb hw hall
    exact selectFormatLoop_exact resolution hb hw formats none hall

/-- C4, witness: `C4_theorem` applied at a selected variant with an empty
format list and at an exact resolution spec matched by no format. -/
theorem C4_witness :
    GetFormat [{ hardsubLocale := "de-DE", subtitles := [], formats := [] }]
        "1280x720" "de-DE" true = .noResolution ∧
    selectFormat "1280x720" [{ resolution := "640x360" }] = .noMatch := by
  constructor
  · exact C4_theorem.2.1 [{ hardsubLocale := "de-DE", subtitles := [], formats := [] }]
      "1280x720" "de-DE" true { hardsubLocale := "de-DE", subtitles := [], formats := [] }
      (by decide) rfl
  · exact C4_theorem.2.2.1 "1280x720" [{ resolution := "640x360" }]
      (by decide) (by decide) (by decide)

/-- C2, counterexample.  The claim says the normalizer never panics on a
body shape it does not recognize and degrades to the HTTP status line
classification; in particular for a body with `"code"` and a non-empty
`"context"` array whose first element is not an object.  False: exactly
that body panics (the unchecked `errContext[0].(map[string]any)`
assertion). -/
theorem C2_counterexample :
    normalize 200 "200 OK"
        (.obj [("code", .str "error.validation"), ("context", .arr [.str "oops"])]) =
      .panicked := by decide

/-- C2, amended.  A body that fails to parse is reported as the
malformed-error-body kind and an empty body never panics; but the
normalizer is not total: it panics exactly on a decoded object without
an `"error"` key, with a `"code"` key and a non-empty `"context"` array,
whose first element either is not an object or lacks the string keys the
code asserts (`"message"`-or-`"code"`, and `"field"`). -/
theorem C2_theorem :
    (∀ (st : Nat) (line : String), normalize st line .malformed = .malformedJson) ∧
    (∀ (st : Nat) (line : String), normalize st line .empty ≠ .panicked) ∧
    (∀ (st : Nat) (line : String) (body : Body),
      normalize st line body = .panicked ↔
        ∃ fields, body = .obj fields ∧ jLookup fields "error" = none ∧
          ∃ c v rest, jLookup fields "code" = some c ∧
            jLookup fields "context" = some (.arr (v :: rest)) ∧
            contextElem v = .panicked) := by
  refine ⟨fun _ _ => rfl, ?_, ?_⟩
  · intro st line h
    rw [normalize] at h
    split at h
    · exact ReqResult.noConfusion h
    · exact ReqResult.noConfusion h
  · intro st line body
    cases body with
    | empty =>
      constructor
      · intro h
        rw [normalize] at h
        split at h
        · exact ReqResult.noConfusion h
        · exact ReqResult.noConfusion h
      · rintro ⟨fields, h, -⟩
        exact Body.noConfusion h
    | malformed =>
      constructor
      · intro h
        exact ReqResult.noConfusion h
      · rintro ⟨fields, h, -⟩
        exact Body.noConfusion h
    | obj fields =>
      have hfb : (if st ≥ 400 then ReqResult.errMsg line else .ok) ≠ .panicked := by
        split
        · simp
        · simp
      rw [normalize]
      rw [classifyObj_panicked fields _ hfb]
      constructor
      · rintro ⟨herr, rest⟩
        exact ⟨fields, rfl, herr, rest⟩
      · rintro ⟨fields', heq, herr, rest⟩
        cases heq
        exact ⟨herr, rest⟩

/-- C5.  The four documented error-body shapes, tried in the code's
order, produce exactly the documented messages: string `error` with
string `code` gives `"<error> - <code>"`, string `error` alone gives
`"<error>"`, boolean `error` true gives the `message` value, `code` with
a non-empty well-shaped `context` array gives
`"<first element's message, or its code> - <field>"`, `code` with a
string `message` (and no non-empty `context` array) gives that message;
and when no shape matches (any `unclassified` body: boolean or
non-string `error` values without a string `message`, a missing `code`,
or a `code` without non-empty `context` and without string `message`)
and the status is at least 400, the message is the status line. -/
theorem C5_theorem (st : Nat) (line : String) (fields : List (String × JValue)) :
    (∀ e c, jLookup fields "error" = some (.str e) →
      jLookup fields "code" = some (.str c) →
      normalize st line (.obj fields) = .errMsg (e ++ " - " ++ c)) ∧
    (∀ e, jLookup fields "error" = some (.str e) →
      jLookup fields "code" = none →
      normalize st line (.obj fields) = .errMsg e) ∧
    (∀ m, jLookup fields "error" = some (.bool true) →
      jLookup fields "message" = some (.str m) →
      normalize st line (.obj fields) = .errMsg m) ∧
    (∀ c ef rest s fld, jLookup fields "error" = none →
      jLookup fields "code" = some c →
      jLookup fields "context" = some (.arr (.obj ef :: rest)) →
      contextCode ef = some s →
      jLookup ef "field" = some (.str fld) →
      normalize st line (.obj fields) = .errMsg (s ++ " - " ++ fld)) ∧
    (∀ c m, jLookup fields "error" = none →
      jLookup fields "code" = some c →
      (∀ v rest, jLookup fields "context" ≠ some (.arr (v :: rest))) →
      jLookup fields "message" = some (.str m) →
      normalize st line (.obj fields) = .errMsg m) ∧
    (unclassified fields → 400 ≤ st →
      normalize st line (.obj fields) = .errMsg line) := by
  refine ⟨?_, ?_, ?_, ?_, ?_, ?_⟩
  · intro e c h1 h2
    simp [normalize, classifyObj, h1, h2]
  · intro e h1 h2
    simp [normalize, classifyObj, h1, h2]
  · intro m h1 h2
    simp [normalize, classifyObj, h1, h2]
  · intro c ef rest s fld h1 h2 h3 h4 h5
    simp [normalize, classifyObj, contextElem, contextBranch, h1, h2, h3, h4, h5]
  · intro c m h1 h2 h3 h4
    rcases hctx : jLookup fields "context" with - | v
    · simp [normalize, classifyObj, h1, h2, hctx, h4]
    · cases v with
      | null => simp [normalize, classifyObj, h1, h2, hctx, h4]
      | bool b => simp [normalize, classifyObj, h1, h2, hctx, h4]
      | str s => simp [normalize, classifyObj, h1, h2, hctx, h4]
      | num n => simp [normalize, classifyObj, h1, h2, hctx, h4]
      | obj o => simp [normalize, classifyObj, h1, h2, hctx, h4]
      | arr xs =>
        cases xs with
        | nil => simp [normalize, classifyObj, h1, h2, hctx, h4]
        | cons v rest => exact absurd hctx (h3 v rest)
  · intro h hst
    rw [normalize, classifyObj_unclassified fields _ h, if_pos hst]

/-- C5, witness: one concrete body per shape of `C5_theorem`, each
discharged by applying the theorem; the status-line conjunct is
exercised on four unmatched bodies — no `error`/`code` keys at all,
boolean false `error`, boolean true `error` without a string `message`,
and `code` with an empty `context` array and no `message`. -/
theorem C5_witness :
    normalize 403 "403 Forbidden"
        (.obj [("error", .str "invalid_grant"), ("code", .str "auth.oauth2_error")]) =
      .errMsg "invalid_grant - auth.oauth2_error" ∧
    normalize 401 "401 Unauthorized" (.obj [("error", .str "invalid_session")]) =
      .errMsg "invalid_session" ∧
    normalize 200 "200 OK"
        (.obj [("error", .bool true), ("message", .str "session expired")]) =
      .errMsg "session expired" ∧
    normalize 400 "400 Bad Request"
        (.obj [("code", .str "error.validation"),
          ("context", .arr [.obj [("code", .str "invalid"), ("field", .str "username")]])]) =
      .errMsg "invalid - username" ∧
    normalize 400 "400 Bad Request"
        (.obj [("code", .str "error.auth"), ("message", .str "bad credentials")]) =
      .errMsg "bad credentials" ∧
    normalize 404 "404 Not Found" (.obj [("ok", .bool false)]) = .errMsg "404 Not Found" ∧
    normalize 404 "404 Not Found" (.obj [("error", .bool false)]) =
      .errMsg "404 Not Found" ∧
    normalize 500 "500 Internal Server Error" (.obj [("error", .bool true)]) =
      .errMsg "500 Internal Server Error" ∧
    normalize 404 "404 Not Found"
        (.obj [("code", .str "error.code"), ("context", .arr [])]) =
      .errMsg "404 Not Found" := by
  refine ⟨?_, ?_, ?_, ?_, ?_, ?_, ?_, ?_, ?_⟩
  · exact (C5_theorem 403 "403 Forbidden" _).1 "invalid_grant" "auth.oauth2_error" rfl rfl
  · exact (C5_theorem 401 "401 Unauthorized" _).2.1 "invalid_session" rfl rfl
  · exact (C5_theorem 200 "200 OK" _).2.2.1 "session expired" rfl rfl
  · exact (C5_theorem 400 "400 Bad Request" _).2.2.2.1 (.str "error.validation")
      [("code", .str "invalid"), ("field", .str "username")] [] "invalid" "username"
      rfl rfl rfl rfl rfl
  · exact (C5_theorem 400 "400 Bad Request" _).2.2.2.2.1 (.str "error.auth")
      "bad credentials" rfl rfl (fun v rest h => Option.noConfusion h) rfl
  · refine (C5_theorem 404 "404 Not Found" _).2.2.2.2.2 ⟨?_, ?_, ?_⟩ (by decide)
    · intro e h
      simp [jLookup] at h
    · intro h
      simp [jLookup] at h
    · intro h c hc
      simp [jLookup] at hc
  · refine (C5_theorem 404 "404 Not Found" _).2.2.2.2.2 ⟨?_, ?_, ?_⟩ (by decide)
    · intro e h
      simp [jLookup] at h
    · intro h
      simp [jLookup] at h
    · intro h c hc
      simp [jLookup] at h
  · refine (C5_theorem 500 "500 Internal Server Error" _).2.2.2.2.2 ⟨?_, ?_, ?_⟩
      (by decide)
    · intro e h
      simp [jLookup] at h
    · intro h m hm
      simp [jLookup] at hm
    · intro h c hc
      simp [jLookup] at h
  · refine (C5_theorem 404 "404 Not Found" _).2.2.2.2.2 ⟨?_, ?_, ?_⟩ (by decide)
    · intro e h
      simp [jLookup] at h
    · intro h
      simp [jLookup] at h
    · intro h c hc
      constructor
      · intro v rest hv
        simp [jLookup] at hv
      · intro m hm
        simp [jLookup] at hm

/-- C10.  A decoded object whose `error` key is boolean true but which
has no string `message` key, on a response with status below 400, is
classified as no error at all: the response is returned with a nil
error. -/
theorem C10_theorem (st : Nat) (line : String) (fields : List (String × JValue))
    (hstatus : st < 400)
    (herr : jLookup fields "error" = some (.bool true))
    (hmsg : ∀ m, jLookup fields "message" ≠ some (JValue.str m)) :
    normalize st line (.obj fields) = .ok := by
  have hlt : ¬ st ≥ 400 := Nat.not_le.mpr hstatus
  rcases hm : jLookup fields "message" with - | v
  · simp [normalize, classifyObj, herr, hm, hlt]
  · cases v with
    | str s => exact absurd hm (hmsg s)
    | null => simp [normalize, classifyObj, herr, hm, hlt]
    | bool b => simp [normalize, classifyObj, herr, hm, hlt]
    | num n => simp [normalize, classifyObj, herr, hm, hlt]
    | arr xs => simp [normalize, classifyObj, herr, hm, hlt]
    | obj o => simp [normalize, classifyObj, herr, hm, hlt]

/-- C10, witness: `C10_theorem` at status 200 and the body
`{"error": true}`. -/
theorem C10_witness :
    normalize 200 "200 OK" (.obj [("error", .bool true)]) = .ok :=
  C10_theorem 200 "200 OK" [("error", .bool true)] (by decide) rfl
    (fun m h => Option.noConfusion h)

/-- C3 (code bug).  Evaluating `LoginWithRefreshToken` at the failing
input: a first call failing at transport level (no `*RequestError`)
makes the one-value assertion `err.(*RequestError)` panic instead of
returning the error (first conjunct).  The remaining conjuncts evaluate
the claim's true parts: on a first-call 400 the fallback request (grant
`etp_rt_cookie`, header B, `etp_rt` cookie — last conjunct) is issued
once, a failing fallback's error is what the caller gets, a succeeding
fallback logs in, and a non-400 status is returned without any
fallback. -/
theorem C3_theorem :
    LoginWithRefreshToken (fun _ => .error (.transport "connection refused")) "tok" =
      .panicked ∧
    LoginWithRefreshToken
        (fun r =>
          if r = firstTokenRequest "tok" then .error (.requestError 400 "first 400")
          else if r = fallbackTokenRequest "tok" then
            .error (.requestError 400 "fallback 400")
          else .error (.transport "unexpected request")) "tok" =
      .failure (.requestError 400 "fallback 400") ∧
    LoginWithRefreshToken
        (fun r =>
          if r = firstTokenRequest "tok" then .error (.requestError 400 "first 400")
          else if r = fallbackTokenRequest "tok" then .ok ()
          else .error (.transport "unexpected request")) "tok" =
      .success true ∧
    LoginWithRefreshToken
        (fun r =>
          if r = firstTokenRequest "tok" then .error (.requestError 500 "server error")
          else .ok ()) "tok" =
      .failure (.requestError 500 "server error") ∧
    fallbackTokenRequest "tok" =
      { grantType := "etp_rt_cookie", refreshTokenParam := none,
        scope := "offline_access", authHeader := authHeaderB,
        cookies := [("etp_rt", "tok")] } := by
  refine ⟨rfl, by decide, by decide, by decide, rfl⟩

/-- C6.  `postLogin` yields a session exactly when all three bootstrap
calls succeed; a failing call aborts with that call's error (first
failing call wins), so a partially populated session is never
returned. -/
theorem C6_theorem (ε : Type) (r1 : Except ε CmsData) (r2 r3 : Except ε String) :
    ((∃ s, postLogin r1 r2 r3 = .ok s) ↔
      (∃ a, r1 = .ok a) ∧ (∃ b, r2 = .ok b) ∧ (∃ m, r3 = .ok m)) ∧
    (∀ e, r1 = .error e → postLogin r1 r2 r3 = .error e) ∧
    (∀ a e, r1 = .ok a → r2 = .error e → postLogin r1 r2 r3 = .error e) ∧
    (∀ a b e, r1 = .ok a → r2 = .ok b → r3 = .error e →
      postLogin r1 r2 r3 = .error e) := by
  refine ⟨?_, ?_, ?_, ?_⟩
  · cases r1 <;> cases r2 <;> cases r3 <;> simp [postLogin]
  · intro e h
    cases h
    rfl
  · intro a e h1 h2
    cases h1
    cases h2
    rfl
  · intro a b e h1 h2 h3
    cases h1
    cases h2
    cases h3
    rfl

/-- C6, witness: `C6_theorem` at each of the three failing calls. -/
theorem C6_witness :
    postLogin (Except.error "index failed" : Except String CmsData) (.ok "ext")
        (.ok "M3") = .error "index failed" ∧
    postLogin (.ok { bucket := "/cms/us", policy := "p", signature := "sg",
                     keyPairID := "k" } : Except String CmsData)
        (.error "me failed") (.ok "M3") = .error "me failed" ∧
    postLogin (.ok { bucket := "/cms/us", policy := "p", signature := "sg",
                     keyPairID := "k" } : Except String CmsData)
        (.ok "ext") (.error "profile failed") = .error "profile failed" :=
  ⟨(C6_theorem String _ _ _).2.1 "index failed" rfl,
   (C6_theorem String _ _ _).2.2.1 _ "me failed" rfl rfl,
   (C6_theorem String _ _ _).2.2.2 _ "ext" "profile failed" rfl rfl rfl⟩

/-- C9, counterexample.  The claim says that after `SetCaching(false)`
new accessor calls bypass any previously cached child-object list.
False: the accessor returns the cached list whenever the slot is
non-nil, whatever the cache flag — here the cached list, not the fresh
fetch, is returned. -/
theorem C9_counterexample :
    (streamsStep false (some [{ hardsubLocale := "ja-JP", subtitles := [], formats := [] }])
        [{ hardsubLocale := "de-DE", subtitles := [], formats := [] }]).1 =
      [{ hardsubLocale := "ja-JP", subtitles := [], formats := [] }] ∧
    [({ hardsubLocale := "ja-JP", subtitles := [], formats := [] } : Stream)] ≠
      [{ hardsubLocale := "de-DE", subtitles := [], formats := [] }] :=
  ⟨rfl, by decide⟩

/-- C9, amended.  After `SetCaching(false)`, accessor calls still return
a previously cached child-object list (disabling is not retroactive and
cached objects stay cached), a fetch performed while caching is disabled
does not populate the cache slot, a fetch with caching enabled does, and
`IsCaching` returns the last value passed to `SetCaching`. -/
theorem C9_theorem :
    (∀ (cached fetched : List Stream),
      streamsStep false (some cached) fetched = (cached, some cached)) ∧
    (∀ (fetched : List Stream), streamsStep false none fetched = (fetched, none)) ∧
    (∀ (fetched : List Stream), streamsStep true none fetched = (fetched, some fetched)) ∧
    (∀ (c : Session) (b : Bool), IsCaching (SetCaching c b) = b) :=
  ⟨fun _ _ => rfl, fun _ => rfl, fun _ => rfl, fun _ _ => rfl⟩

end Crunchyroll
